import Mathlib

/-!
Verification development for the `athenaq` command line tool
(`github.com/advincze/athenaq`), a Go program that submits an Athena SQL
query, polls it to completion and fetches the result from S3.

The Go sources are shallowly embedded:
  * Go strings are byte sequences; we model them as `List Nat` (`GoStr`),
    each element a byte value `< 256`.  ASCII literals are produced by `gs`.
  * The `s3path` package (`S3Path`, `String`, `Parse`) is embedded together
    with the fragment of Go's standard library `net/url` it relies on
    (`url.Parse`, `(*URL).String`, percent escaping) — modelled from the
    modern Go standard library sources, restricted to the fields the
    program uses (Scheme, Opaque, Host, Path; User is only validated).
  * The query orchestration (`awsCli.executeQuery`, `CreateBucketIfNotExists`,
    `main`) is embedded with all remote calls (STS, S3, Athena) supplied as
    explicit oracles describing the remote side's behaviour; plain Lean
    `String` is used for these, since only equality of ASCII literals matters.
  * A separate timed model of `executeQuery`'s `select` loop captures the
    interaction of the 500 ms ticker, the context deadline and the duration
    of `GetQueryExecutionWithContext` calls (which receive the same context
    and are therefore aborted when the deadline fires mid-call).
-/

namespace Athenaq

/-- Decidable equality for `Except`, used to evaluate the models on
concrete inputs. -/
instance {ε α : Type _} [DecidableEq ε] [DecidableEq α] :
    DecidableEq (Except ε α) := fun a b =>
  match a, b with
  | .error e, .error f =>
    if h : e = f then .isTrue (congrArg Except.error h)
    else .isFalse (fun hh => h (Except.error.inj hh))
  | .error _, .ok _ => .isFalse (fun hh => Except.noConfusion hh)
  | .ok _, .error _ => .isFalse (fun hh => Except.noConfusion hh)
  | .ok a, .ok b =>
    if h : a = b then .isTrue (congrArg Except.ok h)
    else .isFalse (fun hh => h (Except.ok.inj hh))

/-- Go strings are byte sequences; bytes are modelled as `Nat` values `< 256`. -/
abbrev GoStr : Type := List Nat

/-- ASCII string literal to `GoStr` (all literals used are ASCII). -/
def gs (s : String) : GoStr := s.data.map Char.toNat

/-! ### Untimed model of `awsCli.executeQuery` (src/main.go lines 366-401)

The Go loop submits the query (`StartQueryExecutionWithContext`), then on a
500 ms ticker calls `GetQueryExecutionWithContext` and inspects
`Status.State`:

```
switch *getQueryExecutionOut.QueryExecution.Status.State {
case "FAILED", "CANCELLED":
    return ..., fmt.Errorf("athena query could not finish: %v", *...StateChangeReason)
case "SUCCEEDED":
    return getQueryExecutionOut.QueryExecution, nil
default:
    continue
}
```

The untimed model ignores the context deadline (covered by the timed model
below) and feeds the loop an oracle: the list of successive outcomes of the
`GetQueryExecution` remote call.  The model returns the loop's outcome
together with the number of `GetQueryExecution` calls that were issued. -/

/-- Outcome of one `GetQueryExecutionWithContext` remote call, as seen by the
loop body: either a transport error (`err != nil`) or a successful response
carrying `Status.State` and `Status.StateChangeReason`. -/
inductive PollResult where
  | transportErr (msg : String)
  | status (state : String) (reason : String)
deriving DecidableEq

/-- Result of `executeQuery`: Go's `(*athena.QueryExecution, error)` pair,
with the error cases split by provenance.  The `QueryExecution` payload is
abstracted away (the orchestration claims only concern control flow and
error messages); `exhausted` marks the model artifact of the poll oracle
running out — the Go loop would simply keep polling. -/
inductive ExecResult where
  | submitErr (msg : String)
  | statusErr (msg : String)
  | jobFailed (msg : String)
  | success
  | exhausted
deriving DecidableEq

/-- The polling loop of `executeQuery`: consumes poll outcomes until one
returns (transport error, FAILED/CANCELLED, SUCCEEDED); any other state hits
the `default: continue` branch.  Returns the outcome and the number of
`GetQueryExecution` calls issued. -/
def pollLoop : List PollResult → ExecResult × Nat
  | [] => (.exhausted, 0)
  | .transportErr m :: _ => (.statusErr ("could not get query status: " ++ m), 1)
  | .status st reason :: rest =>
    if st = "FAILED" ∨ st = "CANCELLED" then
      (.jobFailed ("athena query could not finish: " ++ reason), 1)
    else if st = "SUCCEEDED" then
      (.success, 1)
    else
      let r := pollLoop rest
      (r.1, r.2 + 1)

/-- `awsCli.executeQuery`: the submit call (`StartQueryExecutionWithContext`)
either fails — in which case the function returns before any poll — or
succeeds, after which the poll loop runs. -/
def executeQuery (submit : Except String Unit) (polls : List PollResult) :
    ExecResult × Nat :=
  match submit with
  | .error m => (.submitErr ("could not start query execution: " ++ m), 0)
  | .ok _ => pollLoop polls

/-- The three status strings recognised as terminal by the loop. -/
def isTerminalState (st : String) : Prop :=
  st = "SUCCEEDED" ∨ st = "FAILED" ∨ st = "CANCELLED"

instance (st : String) : Decidable (isTerminalState st) := by
  unfold isTerminalState; infer_instance

/-- A poll outcome on which the Go loop takes the `default: continue` branch:
a successful response whose state is none of the three terminal strings. -/
def isNonTerminalOk : PollResult → Prop
  | .transportErr _ => False
  | .status st _ => ¬ isTerminalState st

instance (p : PollResult) : Decidable (isNonTerminalOk p) := by
  cases p <;> unfold isNonTerminalOk <;> infer_instance

/-- What the loop returns on the poll outcome `p`, when `p` is terminal. -/
def terminalReturn : PollResult → ExecResult
  | .transportErr m => .statusErr ("could not get query status: " ++ m)
  | .status st reason =>
    if st = "FAILED" ∨ st = "CANCELLED" then
      .jobFailed ("athena query could not finish: " ++ reason)
    else .success

/-! ### Go `strings` helpers used by the embedded code

Byte-level models of the `strings` package functions the sources call:
`Cut`, `Index`, `LastIndex`, `Contains`, `HasSuffix`, `TrimLeft`, `SplitN`
(all with single-byte or short separators, as in the sources). -/

/-- `strings.Cut(s, sep)` for a single-byte separator: the part before the
first occurrence, and `some` of the part after it when the byte occurs. -/
def goCut (sep : Nat) : GoStr → GoStr × Option GoStr
  | [] => ([], none)
  | b :: rest =>
    if b = sep then ([], some rest)
    else
      let r := goCut sep rest
      (b :: r.1, r.2)

/-- `strings.IndexByte`: first index of the byte, if any. -/
def indexByte (sep : Nat) : GoStr → Option Nat
  | [] => none
  | b :: rest => if b = sep then some 0 else (indexByte sep rest).map (· + 1)

/-- `strings.LastIndex` for a single-byte pattern. -/
def lastIndexByte (sep : Nat) : GoStr → Option Nat
  | [] => none
  | b :: rest =>
    match lastIndexByte sep rest with
    | some i => some (i + 1)
    | none => if b = sep then some 0 else none

/-- `strings.Index` for an arbitrary pattern. -/
def indexSeq (pat : GoStr) : GoStr → Option Nat
  | [] => if pat = [] then some 0 else none
  | b :: rest =>
    if pat.isPrefixOf (b :: rest) then some 0 else (indexSeq pat rest).map (· + 1)

/-- `strings.Contains(s, c)` for a single byte. -/
def goContainsByte (sep : Nat) (s : GoStr) : Bool := s.any (· = sep)

/-- `strings.HasSuffix(s, c)` for a single byte. -/
def hasSuffixByte (sep : Nat) (s : GoStr) : Bool := s.getLast? = some sep

/-! ### Model of the fragment of Go `net/url` used by package `s3path`

`s3path.Parse` calls `url.Parse`, and `(*S3Path).String` builds a
`url.URL{Scheme, Host, Path}` and calls its `String` method.  The following
definitions are translated from the modern Go standard library `net/url`
sources: `shouldEscape`, `escape`, `unescape`, `validOptionalPort`,
`validUserinfo`, `parseHost`, `parseAuthority`, `getScheme`, `parse`,
`Parse` and `(*URL).String`, restricted to the URL fields the program can
observe (`Scheme`, `Opaque`, `Host`, `Path`, `RawQuery`, `Fragment`; the
`User` component is validated and unescaped but its value is dropped).
Error values are represented by a tag naming the failing check; Go's error
message formatting is not reproduced. -/

/-- The escaping contexts of `net/url` (Go's `encoding` enumeration). -/
inductive Encoding where
  | path
  | pathSegment
  | host
  | zone
  | userPassword
  | queryComponent
  | fragment
deriving DecidableEq

/-- Tags for the error returns of the `net/url` model. -/
inductive UrlError where
  | ctlByte
  | missingScheme
  | colonSegment
  | escapeErr
  | invalidHostErr
  | missingBracket
  | invalidPort
  | invalidUserinfo
deriving DecidableEq

/-- Go `net/url.shouldEscape(c, mode)`.  Byte values written numerically:
`33 !  34 "  36 $  38 &  39 apostrophe  40 (  41 )  42 *  43 +  44 ,  45 -
46 .  47 /  58 :  59 ;  60 <  61 =  62 >  63 ?  64 @  91 [  93 ]  95 _
126 ~`. -/
def shouldEscape (c : Nat) (mode : Encoding) : Bool :=
  if (97 ≤ c ∧ c ≤ 122) ∨ (65 ≤ c ∧ c ≤ 90) ∨ (48 ≤ c ∧ c ≤ 57) then false
  else if (mode = .host ∨ mode = .zone) ∧
      (c = 33 ∨ c = 36 ∨ c = 38 ∨ c = 39 ∨ c = 40 ∨ c = 41 ∨ c = 42 ∨ c = 43 ∨
       c = 44 ∨ c = 59 ∨ c = 61 ∨ c = 58 ∨ c = 91 ∨ c = 93 ∨ c = 60 ∨ c = 62 ∨
       c = 34) then false
  else if c = 45 ∨ c = 95 ∨ c = 46 ∨ c = 126 then false
  else if c = 36 ∨ c = 38 ∨ c = 43 ∨ c = 44 ∨ c = 47 ∨ c = 58 ∨ c = 59 ∨
      c = 61 ∨ c = 63 ∨ c = 64 then
    match mode with
    | .path => c = 63
    | .pathSegment => c = 47 ∨ c = 59 ∨ c = 44 ∨ c = 63
    | .userPassword => c = 64 ∨ c = 47 ∨ c = 63 ∨ c = 58
    | .queryComponent => true
    | .fragment => false
    | .host => true
    | .zone => true
  else if mode = .fragment ∧ (c = 33 ∨ c = 40 ∨ c = 41 ∨ c = 42) then false
  else true

/-- Go `net/url.ishex`. -/
def ishex (c : Nat) : Bool :=
  (48 ≤ c ∧ c ≤ 57) ∨ (97 ≤ c ∧ c ≤ 102) ∨ (65 ≤ c ∧ c ≤ 70)

/-- Go `net/url.unhex`. -/
def unhex (c : Nat) : Nat :=
  if 48 ≤ c ∧ c ≤ 57 then c - 48
  else if 97 ≤ c ∧ c ≤ 102 then c - 97 + 10
  else if 65 ≤ c ∧ c ≤ 70 then c - 65 + 10
  else 0

/-- The digit table `"0123456789ABCDEF"` used by Go's escaper. -/
def upperHexDigit (d : Nat) : Nat := if d < 10 then 48 + d else 55 + d

/-- Go `net/url.escape(s, mode)`: percent-escape every byte on which
`shouldEscape` is true (space becomes `+` in query components). -/
def escapeGo (mode : Encoding) : GoStr → GoStr
  | [] => []
  | c :: rest =>
    (if shouldEscape c mode then
      if c = 32 ∧ mode = .queryComponent then [43]
      else [37, upperHexDigit (c / 16), upperHexDigit (c % 16)]
    else [c]) ++ escapeGo mode rest

/-- Go `net/url.unescape(s, mode)`: undo percent escaping, enforcing the
mode-specific validity checks (malformed `%` sequences; in host/zone
components, ASCII escapes other than `%25` and raw bytes that ought to be
escaped are rejected). -/
def unescapeGo (mode : Encoding) : GoStr → Except UrlError GoStr
  | [] => .ok []
  | c :: rest =>
    if c = 37 then
      match rest with
      | x :: y :: rest2 =>
        if ishex x ∧ ishex y then
          if mode = .host ∧ unhex x < 8 ∧ ¬(x = 50 ∧ y = 53) then
            .error .escapeErr
          else if mode = .zone ∧ ¬(x = 50 ∧ y = 53) ∧
              unhex x * 16 + unhex y ≠ 32 ∧
              shouldEscape (unhex x * 16 + unhex y) .host then
            .error .escapeErr
          else
            match unescapeGo mode rest2 with
            | .ok t => .ok ((unhex x * 16 + unhex y) :: t)
            | .error e => .error e
        else .error .escapeErr
      | _ => .error .escapeErr
    else if c = 43 then
      match unescapeGo mode rest with
      | .ok t => .ok ((if mode = .queryComponent then 32 else 43) :: t)
      | .error e => .error e
    else if (mode = .host ∨ mode = .zone) ∧ c < 128 ∧ shouldEscape c mode then
      .error .invalidHostErr
    else
      match unescapeGo mode rest with
      | .ok t => .ok (c :: t)
      | .error e => .error e

/-- Go `net/url.validOptionalPort`: empty, or `:` followed by digits only. -/
def validOptionalPort (port : GoStr) : Bool :=
  match port with
  | [] => true
  | c :: rest => c = 58 ∧ rest.all (fun b => 48 ≤ b ∧ b ≤ 57)

/-- Go `net/url.validUserinfo`. -/
def validUserinfo (s : GoStr) : Bool :=
  s.all fun c =>
    (97 ≤ c ∧ c ≤ 122) ∨ (65 ≤ c ∧ c ≤ 90) ∨ (48 ≤ c ∧ c ≤ 57) ∨
    c = 45 ∨ c = 46 ∨ c = 95 ∨ c = 58 ∨ c = 126 ∨ c = 33 ∨ c = 36 ∨ c = 38 ∨
    c = 39 ∨ c = 40 ∨ c = 41 ∨ c = 42 ∨ c = 43 ∨ c = 44 ∨ c = 59 ∨ c = 61 ∨
    c = 37 ∨ c = 64

/-- Go `net/url.parseHost`: validate brackets/port, then host-unescape. -/
def parseHost (host : GoStr) : Except UrlError GoStr :=
  if host.head? = some 91 then
    match lastIndexByte 93 host with
    | none => .error .missingBracket
    | some i =>
      if ¬ validOptionalPort (host.drop (i + 1)) then .error .invalidPort
      else
        match indexSeq [37, 50, 53] (host.take i) with
        | some zone =>
          match unescapeGo .host (host.take zone) with
          | .error e => .error e
          | .ok h1 =>
            match unescapeGo .zone ((host.take i).drop zone) with
            | .error e => .error e
            | .ok h2 =>
              match unescapeGo .host (host.drop i) with
              | .error e => .error e
              | .ok h3 => .ok (h1 ++ h2 ++ h3)
        | none => unescapeGo .host host
  else
    match lastIndexByte 58 host with
    | some i =>
      if ¬ validOptionalPort (host.drop i) then .error .invalidPort
      else unescapeGo .host host
    | none => unescapeGo .host host

/-- Go `net/url.parseAuthority`, keeping only the host (the `Userinfo`
value is validated and unescaped exactly as in Go, then dropped, since the
program never reads `URL.User`). -/
def parseAuthority (authority : GoStr) : Except UrlError GoStr :=
  match lastIndexByte 64 authority with
  | none => parseHost authority
  | some i =>
    match parseHost (authority.drop (i + 1)) with
    | .error e => .error e
    | .ok host =>
      let userinfo := authority.take i
      if ¬ validUserinfo userinfo then .error .invalidUserinfo
      else if ¬ goContainsByte 58 userinfo then
        match unescapeGo .userPassword userinfo with
        | .error e => .error e
        | .ok _ => .ok host
      else
        let c := goCut 58 userinfo
        match unescapeGo .userPassword c.1 with
        | .error e => .error e
        | .ok _ =>
          match unescapeGo .userPassword (c.2.getD []) with
          | .error e => .error e
          | .ok _ => .ok host

/-- Worker for Go `net/url.getScheme`; `first` records whether we are at
index 0, `orig` is the whole input (returned when there is no scheme). -/
def getSchemeAux (first : Bool) (acc : GoStr) (orig : GoStr) :
    GoStr → Except UrlError (GoStr × GoStr)
  | [] => .ok ([], orig)
  | c :: rest =>
    if (97 ≤ c ∧ c ≤ 122) ∨ (65 ≤ c ∧ c ≤ 90) then
      getSchemeAux false (acc ++ [c]) orig rest
    else if (48 ≤ c ∧ c ≤ 57) ∨ c = 43 ∨ c = 45 ∨ c = 46 then
      if first then .ok ([], orig) else getSchemeAux false (acc ++ [c]) orig rest
    else if c = 58 then
      if first then .error .missingScheme else .ok (acc, rest)
    else .ok ([], orig)

/-- Go `net/url.getScheme`. -/
def getScheme (s : GoStr) : Except UrlError (GoStr × GoStr) :=
  getSchemeAux true [] s s

/-- ASCII lowering; Go applies `strings.ToLower` to the scheme, whose bytes
are ASCII by construction of `getScheme`. -/
def toLowerGo (s : GoStr) : GoStr :=
  s.map fun c => if 65 ≤ c ∧ c ≤ 90 then c + 32 else c

/-- Go `net/url.stringContainsCTLByte`. -/
def stringContainsCTL (s : GoStr) : Bool := s.any fun c => c < 32 ∨ c = 127

/-- The `url.URL` fields observable by this program (`User` is dropped
after validation; `RawPath`, `OmitHost`, `ForceQuery` are never read by the
program and always take their zero value on the parse results it builds).
`opq` stands for Go's `URL.Opaque`. -/
structure GoURL where
  scheme : GoStr
  opq : GoStr
  host : GoStr
  path : GoStr
  rawQuery : GoStr
  fragment : GoStr
deriving DecidableEq

/-- Stages of Go `net/url.parse(rawURL, viaRequest=false)`, split into one
definition per control-flow step of the Go function (the fragment has
already been cut off by `Parse`).  This stage: no `//` authority — the Go
function falls through to `url.setPath(rest)` with the host empty. -/
def parseNoAuthority (scheme rest rawQuery : GoStr) : Except UrlError GoURL :=
  match unescapeGo .path rest with
  | .error e => .error e
  | .ok path => .ok ⟨scheme, [], [], path, rawQuery, []⟩

/-- Stage of Go `parse`: `url.User, url.Host, err = parseAuthority(...)`
followed by `url.setPath(rest)`. -/
def parseAuthorityAndPath (scheme authority rest rawQuery : GoStr) :
    Except UrlError GoURL :=
  match parseAuthority authority with
  | .error e => .error e
  | .ok host =>
    match unescapeGo .path rest with
    | .error e => .error e
    | .ok path => .ok ⟨scheme, [], host, path, rawQuery, []⟩

/-- Stage of Go `parse` after the query string has been cut off: the
opaque/rootless return, the colon-in-first-segment check, and the
authority split on `//`. -/
def parseAfterQuery (scheme rest rawQuery : GoStr) : Except UrlError GoURL :=
  if rest.head? ≠ some 47 ∧ scheme ≠ [] then
    .ok ⟨scheme, rest, [], [], rawQuery, []⟩
  else if rest.head? ≠ some 47 ∧ goContainsByte 58 (goCut 47 rest).1 then
    .error .colonSegment
  else if (scheme ≠ [] ∨ ¬ [47, 47, 47].isPrefixOf rest) ∧
      [47, 47].isPrefixOf rest then
    match indexByte 47 (rest.drop 2) with
    | some i =>
      parseAuthorityAndPath scheme ((rest.drop 2).take i) ((rest.drop 2).drop i)
        rawQuery
    | none => parseAuthorityAndPath scheme (rest.drop 2) [] rawQuery
  else parseNoAuthority scheme rest rawQuery

/-- Stage of Go `parse` after the scheme has been split off: the
`ForceQuery`/`RawQuery` handling (`strings.Cut(rest, "?")`). -/
def parseAfterScheme (scheme rest0 : GoStr) : Except UrlError GoURL :=
  if hasSuffixByte 63 rest0 ∧ ¬ goContainsByte 63 rest0.dropLast then
    parseAfterQuery scheme rest0.dropLast []
  else
    parseAfterQuery scheme (goCut 63 rest0).1 ((goCut 63 rest0).2.getD [])

/-- Go `net/url.parse(rawURL, viaRequest=false)`: control-character check,
`"*"` special case, scheme split, then the stages above. -/
def parseInner (rawURL : GoStr) : Except UrlError GoURL :=
  if stringContainsCTL rawURL then .error .ctlByte
  else if rawURL = [42] then .ok ⟨[], [], [], [42], [], []⟩
  else
    match getScheme rawURL with
    | .error e => .error e
    | .ok sr => parseAfterScheme (toLowerGo sr.1) sr.2

/-- Go `net/url.Parse`: cut the fragment at the first `#`, run `parse`,
then unescape a non-empty fragment. -/
def urlParse (rawURL : GoStr) : Except UrlError GoURL :=
  let c := goCut 35 rawURL
  match parseInner c.1 with
  | .error e => .error e
  | .ok u =>
    match c.2 with
    | none => .ok u
    | some frag =>
      if frag = [] then .ok u
      else
        match unescapeGo .fragment frag with
        | .error e => .error e
        | .ok f => .ok ⟨u.scheme, u.opq, u.host, u.path, u.rawQuery, f⟩

/-- Go `(*url.URL).String()` for a URL of the shape the program builds:
`url.URL{Scheme: scheme, Host: host, Path: path}` with every other field at
its zero value (so `Opaque`, `RawQuery`, `Fragment` are empty, `User` is
nil, `OmitHost` and `ForceQuery` are false, and `EscapedPath()` is
`escape(path, encodePath)` because `RawPath` is empty). -/
def urlToString (scheme host path : GoStr) : GoStr :=
  let ep := escapeGo .path path
  (if scheme ≠ [] then scheme ++ [58] else []) ++
  (if scheme ≠ [] ∨ host ≠ [] then
    (if host ≠ [] ∨ path ≠ [] then [47, 47] else []) ++ escapeGo .host host
  else []) ++
  (if ep ≠ [] ∧ ep.head? ≠ some 47 ∧ host ≠ [] then [47] else []) ++
  (if scheme = [] ∧ host = [] ∧ goContainsByte 58 (goCut 47 ep).1 then [46, 47]
  else []) ++
  ep

/-! ### The `s3path` package (src/unnamed/part_000) -/

/-- `s3path.S3Path`. -/
structure S3Path where
  Bucket : GoStr
  Key : GoStr
deriving DecidableEq

/-- Error cases of `s3path.Parse` (message formatting abstracted to tags:
`"empty URL"`, `"could not parse URL %q: %v"`, `"wrong s3 URL scheme: %q,
expected: %q"`). -/
inductive S3ParseError where
  | emptyURL
  | urlErr (e : UrlError)
  | wrongScheme (scheme : GoStr)
deriving DecidableEq

/-- `s3path.Parse`: reject empty input, defer to `url.Parse`, require the
`s3` scheme, then take `Bucket` from the host and `Key` from the path with
`strings.TrimLeft(u.Path, "/")`. -/
def s3pathParse (s3URL : GoStr) : Except S3ParseError S3Path :=
  if s3URL = [] then .error .emptyURL
  else
    match urlParse s3URL with
    | .error e => .error (.urlErr e)
    | .ok u =>
      if u.scheme ≠ gs "s3" then .error (.wrongScheme u.scheme)
      else .ok ⟨u.host, u.path.dropWhile (· = 47)⟩

/-- `(*s3path.S3Path).String()`: build `url.URL{Scheme: "s3", Host: Bucket,
Path: Key}` and render it. -/
def S3Path.render (p : S3Path) : GoStr :=
  urlToString (gs "s3") p.Bucket p.Key

/-! ### `valueFlags.Set` (src/main.go lines 252-259) -/

/-- `strings.SplitN(s, sep, 2)` for a single-byte separator. -/
def goSplitN2 (sep : Nat) (s : GoStr) : List GoStr :=
  let c := goCut sep s
  match c.2 with
  | none => [c.1]
  | some post => [c.1, post]

/-- `(*valueFlags).Set`: split on the first `=` (byte 61); an input without
`=` yields a one-element split and the error `fmt.Errorf("wrong value %q",
value)` (modelled as a unit error); otherwise bind key to value in the map
(modelled as a lookup function). -/
def valueFlagsSet (m : GoStr → Option GoStr) (value : GoStr) :
    Except Unit (GoStr → Option GoStr) :=
  match goSplitN2 61 value with
  | [k, v] => .ok (fun x => if x = k then some v else m x)
  | _ => .error ()

/-! ### `awsCli.CreateBucketIfNotExists` (src/main.go lines 334-356)

The Go method parses the path, calls `s3.CreateBucket` and inspects the
error: an `awserr.Error` whose code is `s3.ErrCodeBucketAlreadyExists`
(`"BucketAlreadyExists"`, returned when the bucket name is taken by another
account) or `s3.ErrCodeBucketAlreadyOwnedByYou`
(`"BucketAlreadyOwnedByYou"`, returned when the caller already owns it) is
swallowed; every other error is returned. -/

/-- The remote outcome of the `s3.CreateBucket` call: success, an AWS error
(a value implementing `awserr.Error`, with its `Code()`), or an error that
does not implement `awserr.Error`. -/
inductive CreateBucketOutcome where
  | ok
  | awsErr (code : String) (msg : String)
  | plainErr (msg : String)
deriving DecidableEq

/-- Error return of `CreateBucketIfNotExists`. -/
inductive CbError where
  | parseErr (e : S3ParseError)
  | callErr (o : CreateBucketOutcome)
deriving DecidableEq

/-- `awsCli.CreateBucketIfNotExists`; `none` means a nil error return. -/
def createBucketIfNotExists (path : GoStr) (call : CreateBucketOutcome) :
    Option CbError :=
  match s3pathParse path with
  | .error e => some (.parseErr e)
  | .ok _ =>
    match call with
    | .ok => none
    | .awsErr code msg =>
      if code = "BucketAlreadyExists" ∨ code = "BucketAlreadyOwnedByYou" then
        none
      else some (.callErr (.awsErr code msg))
    | .plainErr msg => some (.callErr (.plainErr msg))

/-! ### Timed model of `executeQuery`'s select loop

A discrete-time (millisecond) model of the loop

```
t := time.NewTicker(time.Millisecond * 500)
for {
    select {
    case <-ctx.Done():
        return nil, fmt.Errorf("query got cancelled")
    case <-t.C:
        ... GetQueryExecutionWithContext(ctx, ...) ...
    }
}
```

with the ticker started at time 0 (when `executeQuery`'s submit call has
returned) and the context deadline at `deadline`.  Ticks arrive at every
multiple of 500; the ticker channel buffers one tick and drops ticks that
arrive while the buffer is full, so after a tick is consumed at time `s`
the next tick becomes available at `500 * (s / 500) + 500`.  Each poll has
a duration; because the `GetQueryExecution` call receives the same `ctx`,
a call still in flight when the deadline fires is aborted by the AWS SDK at
the deadline and returns a request-cancelled error, which the loop wraps as
`"could not get query status: ..."` — it does not reach the
`"query got cancelled"` branch.  When the deadline and a tick are ready
simultaneously Go's `select` chooses randomly; the model resolves the tie
in favour of `ctx.Done()` (the tie never occurs in the scenarios decided
here, and a tick chosen after the deadline would make the SDK call fail
immediately without a remote request).  The model returns the outcome, the
start times of the `GetQueryExecution` calls that were issued, and the
return time. -/

/-- One poll of the timed model: how long the `GetQueryExecution` call
takes when it is not aborted, and what it returns. -/
structure TimedPoll where
  dur : Nat
  res : PollResult
deriving DecidableEq

/-- Outcome of the timed `executeQuery` model. -/
inductive TimedOutcome where
  | submitErr (msg : String)
  | cancelled
  | statusCtxErr
  | statusErr (msg : String)
  | jobFailed (msg : String)
  | success
  | exhausted
deriving DecidableEq

/-- The timed poll loop; arguments: remaining poll oracle, current time,
arrival time of the next ticker tick, call start times so far. -/
def timedLoop (deadline : Nat) :
    List TimedPoll → Nat → Nat → List Nat → TimedOutcome × List Nat × Nat
  | polls, t, nextTick, starts =>
    let tickAt := max t nextTick
    let doneAt := max t deadline
    if doneAt ≤ tickAt then (.cancelled, starts, doneAt)
    else
      match polls with
      | [] => (.exhausted, starts, tickAt)
      | p :: rest =>
        let finish := tickAt + p.dur
        if deadline < finish then (.statusCtxErr, starts ++ [tickAt], deadline)
        else
          match p.res with
          | .transportErr m =>
            (.statusErr ("could not get query status: " ++ m),
              starts ++ [tickAt], finish)
          | .status st reason =>
            if st = "FAILED" ∨ st = "CANCELLED" then
              (.jobFailed ("athena query could not finish: " ++ reason),
                starts ++ [tickAt], finish)
            else if st = "SUCCEEDED" then
              (.success, starts ++ [tickAt], finish)
            else
              timedLoop deadline rest finish (500 * (tickAt / 500) + 500)
                (starts ++ [tickAt])

/-- Timed `executeQuery`: a failed submit returns before the ticker is
created; otherwise the loop starts at time 0 with the first tick due at
500. -/
def executeQueryTimed (deadline : Nat) (submit : Except String Unit)
    (polls : List TimedPoll) : TimedOutcome × List Nat × Nat :=
  match submit with
  | .error m =>
    (.submitErr ("could not start query execution: " ++ m), [], 0)
  | .ok _ => timedLoop deadline polls 0 500 []

/-! ### `main` (src/main.go lines 261-321)

`main` retrieves the account ID, renders the result-path template, ensures
the result bucket exists, reads the whole of stdin, renders it as a
template against the `-val` bindings (`query := execTemplate(string(sql),
values)`), runs `executeQuery` once with that single query string, and on
success fetches the result via `getS3Contents`; each failing step prints to
stderr and calls `os.Exit(1)`.  There is no splitting of the input into
multiple queries.  Template rendering (`text/template`) is an external
collaborator and is passed in as the function `render`; remote calls are
oracles in `MainWorld`. -/

/-- The oracle describing the remote world one `main` invocation sees. -/
structure MainWorld where
  accountID : Except String String
  resultPath : GoStr
  createBucket : CreateBucketOutcome
  stdin : Except String String
  submit : Except String Unit
  polls : List PollResult
  fetch : Except String String

/-- The message `main` writes to stderr before `os.Exit(1)`; each
constructor corresponds to one `fmt.Fprintf(os.Stderr, ...)` site (the
`execErr` and `fetchErr`, `accountErr`, `stdinErr` payloads are the full
interpolated text; `bucketErr` keeps the structured error of
`CreateBucketIfNotExists`, whose rendering is not modelled). -/
inductive MainErr where
  | accountErr (msg : String)
  | bucketErr (e : CbError)
  | stdinErr (msg : String)
  | execErr (msg : String)
  | fetchErr (msg : String)
deriving DecidableEq

/-- The error string of a failed `executeQuery` result. -/
def execErrMsg : ExecResult → Option String
  | .submitErr m => some m
  | .statusErr m => some m
  | .jobFailed m => some m
  | .success => none
  | .exhausted => none

/-- Observable outcome of one `main` invocation: the process exit code, the
query strings passed to `StartQueryExecution` (in order), whether
`getS3Contents` was called, the stderr diagnostic, and the bytes printed to
stdout (`fmt.Print(string(data))` only runs when `len(data) > 0`). -/
structure MainOutcome where
  exitCode : Nat
  submissions : List String
  fetchTried : Bool
  stderrText : Option MainErr
  stdout : Option String
deriving DecidableEq

/-- `main`, as a function of the remote-world oracle and the template
renderer; `none` is the model artifact for the poll oracle running out
(the Go process would still be polling). -/
def mainRun (w : MainWorld) (render : String → String) : Option MainOutcome :=
  match w.accountID with
  | .error e => some ⟨1, [], false, some (.accountErr e), none⟩
  | .ok _ =>
    match createBucketIfNotExists w.resultPath w.createBucket with
    | some e => some ⟨1, [], false, some (.bucketErr e), none⟩
    | none =>
      match w.stdin with
      | .error e => some ⟨1, [], false, some (.stdinErr e), none⟩
      | .ok sql =>
        let query := render sql
        match executeQuery w.submit w.polls with
        | (.success, _) =>
          match w.fetch with
          | .error e => some ⟨1, [query], true, some (.fetchErr e), none⟩
          | .ok data =>
            some ⟨0, [query], true, none, if data ≠ "" then some data else none⟩
        | (.exhausted, _) => none
        | (r, _) =>
          some ⟨1, [query], false,
            some (.execErr ("could not execute athena query: " ++
              (execErrMsg r).getD "")), none⟩

/-- Bytes over which the C8 amendment is stated: ASCII characters that the
Go host encoder leaves unescaped — letters, digits, the marks 45 46 95 126
(hyphen, dot, underscore, tilde) and the sub-delimiters 33 36 38 39 40 41
42 43 44 59 61 60 62 34 — excluding 58 91 93 (colon and square brackets),
which trip the port/bracket handling of net/url on re-parse. -/
def hostLiteralByte (c : Nat) : Bool :=
  (decide ((97 ≤ c ∧ c ≤ 122) ∨ (65 ≤ c ∧ c ≤ 90) ∨ (48 ≤ c ∧ c ≤ 57))) ||
  (decide (c = 45 ∨ c = 46 ∨ c = 95 ∨ c = 126 ∨ c = 33 ∨ c = 36 ∨ c = 38 ∨
    c = 39 ∨ c = 40 ∨ c = 41 ∨ c = 42 ∨ c = 43 ∨ c = 44 ∨ c = 59 ∨ c = 61 ∨
    c = 60 ∨ c = 62 ∨ c = 34))

/-! ## Theorems -/

/-- A status poll whose state is not terminal makes the loop continue with
the remaining oracle: one more call is counted and nothing is returned for
that status. -/
theorem pollLoop_nonterminal_cons (st reason : String) (rest : List PollResult)
    (h : ¬ isTerminalState st) :
    pollLoop (.status st reason :: rest) =
      ((pollLoop rest).1, (pollLoop rest).2 + 1) := by
  unfold isTerminalState at h
  push_neg at h
  have h1 : ¬ (st = "FAILED" ∨ st = "CANCELLED") := by tauto
  have h2 : ¬ (st = "SUCCEEDED") := by tauto
  simp only [pollLoop]
  rw [if_neg h1, if_neg h2]

/-- Polling through a block of non-terminal responses just adds their count
and defers to the rest of the oracle. -/
theorem pollLoop_append (pre : List PollResult) (tail : List PollResult)
    (hpre : ∀ q ∈ pre, isNonTerminalOk q) :
    pollLoop (pre ++ tail) = ((pollLoop tail).1, (pollLoop tail).2 + pre.length) := by
  induction pre with
  | nil => simp
  | cons q pre ih =>
    have hq := hpre q (by simp)
    cases q with
    | transportErr m => exact hq.elim
    | status st reason =>
      have hst : ¬ isTerminalState st := hq
      rw [List.cons_append, pollLoop_nonterminal_cons st reason _ hst,
        ih (fun r hr => hpre r (by simp [hr]))]
      simp [Nat.add_assoc]

/-- The loop returns directly on a terminal status at the head of the
oracle, counting exactly that one call. -/
theorem pollLoop_terminal_head (st reason : String) (rest : List PollResult)
    (h : isTerminalState st) :
    pollLoop (.status st reason :: rest) = (terminalReturn (.status st reason), 1) := by
  simp only [pollLoop, terminalReturn]
  by_cases hfc : st = "FAILED" ∨ st = "CANCELLED"
  · rw [if_pos hfc, if_pos hfc]
  · have hs : st = "SUCCEEDED" := by
      unfold isTerminalState at h
      tauto
    rw [if_neg hfc, if_neg hfc, if_pos hs]

/-- C3: once a `GetQueryExecution` call returns a terminal state
(SUCCEEDED, FAILED or CANCELLED), `executeQuery` returns on exactly that
poll: with `pre` non-terminal responses before the first terminal one, the
number of `GetQueryExecution` calls is exactly `pre.length + 1` — none of
the oracle beyond the terminal response is consumed, and the outcome is
determined by the terminal poll alone. -/
theorem c3_returns_on_first_terminal (pre : List PollResult) (st reason : String)
    (rest : List PollResult) (hpre : ∀ q ∈ pre, isNonTerminalOk q)
    (hst : isTerminalState st) :
    executeQuery (.ok ()) (pre ++ .status st reason :: rest) =
      (terminalReturn (.status st reason), pre.length + 1) := by
  unfold executeQuery
  rw [pollLoop_append pre _ hpre, pollLoop_terminal_head st reason rest hst]
  simp [Nat.add_comm]

/-- C3 witness: two non-terminal polls in front of SUCCEEDED, with a later
FAILED poll that is never reached. -/
theorem c3_witness :
    executeQuery (.ok ()) [.status "RUNNING" "", .status "QUEUED" "",
      .status "SUCCEEDED" "", .status "FAILED" "never read"] = (.success, 3) := by
  have h := c3_returns_on_first_terminal
    [.status "RUNNING" "", .status "QUEUED" ""] "SUCCEEDED" ""
    [.status "FAILED" "never read"] (by decide) (by decide)
  rw [show ([PollResult.status "RUNNING" "", .status "QUEUED" ""] ++
    [PollResult.status "SUCCEEDED" "", .status "FAILED" "never read"]) =
    [PollResult.status "RUNNING" "", .status "QUEUED" "",
      .status "SUCCEEDED" "", .status "FAILED" "never read"] from rfl] at h
  rw [h]
  decide

/-- C4: a status poll whose state is not exactly SUCCEEDED, FAILED or
CANCELLED — RUNNING, QUEUED, the empty string, or any other value — makes
the loop continue to the next iteration: the outcome is whatever the rest
of the oracle produces (never a success or an error for that status), with
one more call counted. -/
theorem c4_nonterminal_continues (st reason : String) (rest : List PollResult)
    (h : ¬ (st = "SUCCEEDED" ∨ st = "FAILED" ∨ st = "CANCELLED")) :
    pollLoop (.status st reason :: rest) =
      ((pollLoop rest).1, (pollLoop rest).2 + 1) :=
  pollLoop_nonterminal_cons st reason rest h

/-- C4 witness: RUNNING, QUEUED, the empty string and an unrecognized
string each just continue the loop. -/
theorem c4_witness :
    pollLoop [.status "RUNNING" ""] = (.exhausted, 1) ∧
    pollLoop [.status "QUEUED" "", .status "SUCCEEDED" ""] = (.success, 2) ∧
    pollLoop [.status "" ""] = (.exhausted, 1) ∧
    pollLoop [.status "TOTALLY_UNKNOWN" "", .status "FAILED" "r"] =
      (.jobFailed "athena query could not finish: r", 2) := by
  refine ⟨?_, ?_, ?_, ?_⟩
  · rw [c4_nonterminal_continues "RUNNING" "" [] (by decide)]; decide
  · rw [c4_nonterminal_continues "QUEUED" "" [.status "SUCCEEDED" ""] (by decide)]; decide
  · rw [c4_nonterminal_continues "" "" [] (by decide)]; decide
  · rw [c4_nonterminal_continues "TOTALLY_UNKNOWN" "" [.status "FAILED" "r"] (by decide)]
    decide

/-- C6: remote-call failures are surfaced immediately with no retry: a
failed submit returns before any `GetQueryExecution` call (zero polls), and
a transport error from `GetQueryExecution` aborts the loop on that
iteration — exactly `pre.length + 1` calls, nothing of the oracle after the
failing call is consumed. -/
theorem c6_remote_failure_immediate (m : String) (polls : List PollResult)
    (pre : List PollResult) (m2 : String) (rest : List PollResult)
    (hpre : ∀ q ∈ pre, isNonTerminalOk q) :
    executeQuery (.error m) polls =
      (.submitErr ("could not start query execution: " ++ m), 0) ∧
    executeQuery (.ok ()) (pre ++ .transportErr m2 :: rest) =
      (.statusErr ("could not get query status: " ++ m2), pre.length + 1) := by
  constructor
  · rfl
  · unfold executeQuery
    rw [pollLoop_append pre _ hpre]
    simp only [pollLoop]
    simp [Nat.add_comm]

/-- C6 witness: a submit failure polls zero times; a transport error on the
second poll stops after exactly two calls, ignoring the rest. -/
theorem c6_witness :
    executeQuery (.error "auth denied") [.status "SUCCEEDED" ""] =
      (.submitErr "could not start query execution: auth denied", 0) ∧
    executeQuery (.ok ()) [.status "RUNNING" "", .transportErr "conn reset",
        .status "SUCCEEDED" ""] =
      (.statusErr "could not get query status: conn reset", 2) := by
  have h := c6_remote_failure_immediate "auth denied" [.status "SUCCEEDED" ""]
    [.status "RUNNING" ""] "conn reset" [.status "SUCCEEDED" ""] (by decide)
  refine ⟨by rw [h.1]; decide, ?_⟩
  have h2 := h.2
  rw [show ([PollResult.status "RUNNING" ""] ++
    [PollResult.transportErr "conn reset", .status "SUCCEEDED" ""]) =
    [PollResult.status "RUNNING" "", .transportErr "conn reset",
      .status "SUCCEEDED" ""] from rfl] at h2
  rw [h2]
  decide

/-- C5: when a poll returns FAILED or CANCELLED after only non-terminal
polls, `executeQuery` returns the error
`"athena query could not finish: " ++ reason` — embedding the
service-provided `StateChangeReason` — after exactly that poll, and `main`
then exits with code 1, prints that error to stderr and never calls
`getS3Contents`. -/
theorem c5_jobfailed_no_fetch (pre : List PollResult) (st reason : String)
    (rest : List PollResult) (w : MainWorld) (render : String → String)
    (acct sql : String)
    (hpre : ∀ q ∈ pre, isNonTerminalOk q)
    (hst : st = "FAILED" ∨ st = "CANCELLED")
    (ha : w.accountID = .ok acct)
    (hb : createBucketIfNotExists w.resultPath w.createBucket = none)
    (hin : w.stdin = .ok sql)
    (hsub : w.submit = .ok ())
    (hp : w.polls = pre ++ .status st reason :: rest) :
    executeQuery w.submit w.polls =
      (.jobFailed ("athena query could not finish: " ++ reason), pre.length + 1) ∧
    mainRun w render = some ⟨1, [render sql], false,
      some (.execErr ("could not execute athena query: " ++
        ("athena query could not finish: " ++ reason))), none⟩ := by
  have hterm : isTerminalState st := Or.inr hst
  have htr : terminalReturn (.status st reason) =
      .jobFailed ("athena query could not finish: " ++ reason) := by
    simp only [terminalReturn]
    rw [if_pos hst]
  have h1 : executeQuery w.submit w.polls =
      (.jobFailed ("athena query could not finish: " ++ reason), pre.length + 1) := by
    rw [hsub, hp]
    unfold executeQuery
    rw [pollLoop_append pre _ hpre, pollLoop_terminal_head st reason rest hterm, htr]
    simp [Nat.add_comm]
  refine ⟨h1, ?_⟩
  unfold mainRun
  rw [ha, hb, hin, h1]
  simp [execErrMsg]

/-- C5 witness: Scenario B — FAILED with reason `SYNTAX_ERROR: line 1`. -/
theorem c5_witness :
    executeQuery (.ok ()) [.status "FAILED" "SYNTAX_ERROR: line 1"] =
      (.jobFailed "athena query could not finish: SYNTAX_ERROR: line 1", 1) ∧
    mainRun ⟨.ok "acct", gs "s3://bkt/tmp", .ok, .ok "select 1", .ok (),
        [.status "FAILED" "SYNTAX_ERROR: line 1"], .ok "unused"⟩ id =
      some ⟨1, ["select 1"], false,
        some (.execErr
          "could not execute athena query: athena query could not finish: SYNTAX_ERROR: line 1"),
        none⟩ := by
  have h := c5_jobfailed_no_fetch [] "FAILED" "SYNTAX_ERROR: line 1" []
    ⟨.ok "acct", gs "s3://bkt/tmp", .ok, .ok "select 1", .ok (),
      [.status "FAILED" "SYNTAX_ERROR: line 1"], .ok "unused"⟩ id "acct" "select 1"
    (by decide) (Or.inl rfl) rfl (by decide) rfl rfl rfl
  constructor
  · exact h.1
  · exact h.2

/-- C1 counterexample: when the bucket already exists but is owned by a
different account, `s3.CreateBucket` fails with the `awserr` code
`BucketAlreadyExists` — and `CreateBucketIfNotExists` swallows it and
returns nil, not a hard error. -/
theorem c1_counterexample :
    createBucketIfNotExists (gs "s3://bkt/Unsaved")
      (.awsErr "BucketAlreadyExists"
        "The requested bucket name is not available") = none := by
  decide

/-- C1 (amended): on a parseable path, `CreateBucketIfNotExists` returns
nil exactly when the `CreateBucket` call succeeds or fails with one of the
two already-exists codes — `BucketAlreadyOwnedByYou` (caller owns it) and
also `BucketAlreadyExists` (someone else owns it); every other failure is a
hard error.  In particular the call is idempotent for a bucket the caller
owns. -/
theorem c1_amended (path : GoStr) (sp : S3Path) (call : CreateBucketOutcome)
    (hp : s3pathParse path = .ok sp) :
    createBucketIfNotExists path call = none ↔
      (call = .ok ∨ (∃ m, call = .awsErr "BucketAlreadyExists" m) ∨
        (∃ m, call = .awsErr "BucketAlreadyOwnedByYou" m)) := by
  cases call with
  | ok => simp [createBucketIfNotExists, hp]
  | plainErr msg => simp [createBucketIfNotExists, hp]
  | awsErr code msg =>
    simp only [createBucketIfNotExists, hp]
    by_cases hc : code = "BucketAlreadyExists" ∨ code = "BucketAlreadyOwnedByYou"
    · rw [if_pos hc]
      constructor
      · intro _
        rcases hc with hc | hc
        · exact Or.inr (Or.inl ⟨msg, by rw [hc]⟩)
        · exact Or.inr (Or.inr ⟨msg, by rw [hc]⟩)
      · intro _
        rfl
    · rw [if_neg hc]
      constructor
      · intro habs
        exact (Option.some_ne_none _ habs).elim
      · rintro (h | ⟨m, h⟩ | ⟨m, h⟩)
        · exact CreateBucketOutcome.noConfusion h
        · injection h with h1 h2
          exact absurd (Or.inl h1) hc
        · injection h with h1 h2
          exact absurd (Or.inr h1) hc

/-- C1 witness: the already-owned-by-caller case succeeds (and, being a
pure function of the oracle, succeeds every time it is invoked with the
same path). -/
theorem c1_witness :
    createBucketIfNotExists (gs "s3://bkt/Unsaved")
      (.awsErr "BucketAlreadyOwnedByYou" "owned by requester") = none :=
  (c1_amended (gs "s3://bkt/Unsaved") ⟨gs "bkt", gs "Unsaved"⟩ _
    (by decide)).mpr (Or.inr (Or.inr ⟨"owned by requester", rfl⟩))

/-- Every `GetQueryExecution` call the timed loop starts is started
strictly before the deadline. -/
theorem timedLoop_starts_lt (deadline : Nat) (polls : List TimedPoll) :
    ∀ (t nextTick : Nat) (starts : List Nat),
      (∀ s ∈ starts, s < deadline) →
      ∀ s ∈ (timedLoop deadline polls t nextTick starts).2.1, s < deadline := by
  induction polls with
  | nil =>
    intro t nextTick starts h s hs
    rw [timedLoop] at hs
    try dsimp only at hs
    by_cases hd : max t deadline ≤ max t nextTick
    · rw [if_pos hd] at hs
      exact h s hs
    · rw [if_neg hd] at hs
      exact h s hs
  | cons p rest ih =>
    intro t nextTick starts h s hs
    rw [timedLoop] at hs
    try dsimp only at hs
    by_cases hd : max t deadline ≤ max t nextTick
    · rw [if_pos hd] at hs
      exact h s hs
    · rw [if_neg hd] at hs
      have htick : max t nextTick < deadline := by omega
      have h2 : ∀ x ∈ starts ++ [max t nextTick], x < deadline := by
        intro x hx
        rcases List.mem_append.mp hx with hx | hx
        · exact h x hx
        · rw [List.mem_singleton.mp hx]
          exact htick
      by_cases hf : deadline < max t nextTick + p.dur
      · rw [if_pos hf] at hs
        exact h2 s hs
      · rw [if_neg hf] at hs
        cases hres : p.res with
        | transportErr m =>
          rw [hres] at hs
          try dsimp only at hs
          exact h2 s hs
        | status st reason =>
          rw [hres] at hs
          try dsimp only at hs
          by_cases h3 : st = "FAILED" ∨ st = "CANCELLED"
          · rw [if_pos h3] at hs
            exact h2 s hs
          · rw [if_neg h3] at hs
            by_cases h4 : st = "SUCCEEDED"
            · rw [if_pos h4] at hs
              exact h2 s hs
            · rw [if_neg h4] at hs
              exact ih _ _ _ h2 s hs

/-- C2 counterexample: Scenario C (deadline 1 s, each `GetQueryExecution`
taking 2 s).  The first tick fires at 500 ms and the poll call, carrying
the same context, is aborted by the deadline at 1000 ms; `executeQuery`
returns the status-error path (`"could not get query status: ..."`), not
the `"query got cancelled"` error the claim asserts.  One call was started
(at 500 ms) and none after the deadline. -/
theorem c2_counterexample :
    executeQueryTimed 1000 (.ok ())
        [⟨2000, .status "RUNNING" ""⟩, ⟨2000, .status "RUNNING" ""⟩] =
      (.statusCtxErr, [500], 1000) ∧
    TimedOutcome.statusCtxErr ≠ TimedOutcome.cancelled := by
  constructor
  · decide
  · decide

/-- C2 (amended): no `GetQueryExecution` call is ever started at or after
the deadline; when the deadline elapses during an in-flight poll the
orchestrator returns the status-error wrapping the context cancellation at
the deadline (Scenario C: first poll starts at 500 ms, aborts at 1000 ms,
no second poll); and when the deadline elapses while waiting between polls
the orchestrator returns the `"query got cancelled"` error with no further
calls. -/
theorem c2_amended (deadline : Nat) (submit : Except String Unit)
    (polls : List TimedPoll) :
    (∀ s ∈ (executeQueryTimed deadline submit polls).2.1, s < deadline) ∧
    (∀ p rest, deadline = 1000 → p.dur = 2000 →
      executeQueryTimed deadline (.ok ()) (p :: rest) =
        (.statusCtxErr, [500], 1000)) ∧
    (deadline ≤ 500 →
      executeQueryTimed deadline (.ok ()) polls = (.cancelled, [], deadline)) := by
  refine ⟨?_, ?_, ?_⟩
  · cases submit with
    | error m => intro s hs; exact absurd hs (by simp [executeQueryTimed])
    | ok u =>
      cases u
      exact timedLoop_starts_lt deadline polls 0 500 [] (by simp)
  · intro p rest h1 h2
    subst h1
    show timedLoop 1000 (p :: rest) 0 500 [] = (.statusCtxErr, [500], 1000)
    rw [timedLoop.eq_def]
    dsimp only
    rw [if_neg (by omega), if_pos (by omega)]
    norm_num
  · intro hle
    show timedLoop deadline polls 0 500 [] = (.cancelled, [], deadline)
    rw [timedLoop.eq_def]
    dsimp only
    rw [if_pos (by omega)]
    norm_num

/-- C2 witness: the amended behaviour at Scenario C and at a deadline that
falls before the first tick. -/
theorem c2_witness :
    executeQueryTimed 1000 (.ok ()) [⟨2000, .status "RUNNING" ""⟩] =
      (.statusCtxErr, [500], 1000) ∧
    executeQueryTimed 300 (.ok ()) [⟨10, .status "RUNNING" ""⟩] =
      (.cancelled, [], 300) := by
  constructor
  · exact (c2_amended 1000 (.ok ()) [⟨2000, .status "RUNNING" ""⟩]).2.1
      ⟨2000, .status "RUNNING" ""⟩ [] rfl rfl
  · exact (c2_amended 300 (.ok ()) [⟨10, .status "RUNNING" ""⟩]).2.2 (by decide)

/-- `goCut` finds no separator exactly when the byte does not occur. -/
theorem goCut_snd_none (c : Nat) (s : GoStr) :
    (goCut c s).2 = none ↔ goContainsByte c s = false := by
  induction s with
  | nil => simp [goCut, goContainsByte]
  | cons b rest ih =>
    by_cases hb : b = c
    · subst hb
      simp [goCut, goContainsByte]
    · simp [goCut, hb, goContainsByte, Ne.symm hb] at ih ⊢
      exact ih

/-- Cutting at the first occurrence of the separator. -/
theorem goCut_append_first (c : Nat) (pre post : GoStr)
    (hpre : goContainsByte c pre = false) :
    goCut c (pre ++ c :: post) = (pre, some post) := by
  induction pre with
  | nil => simp [goCut]
  | cons b rest ih =>
    have hb : b ≠ c := by
      intro hb
      rw [hb] at hpre
      simp [goContainsByte] at hpre
    have hrest : goContainsByte c rest = false := by
      simp [goContainsByte] at hpre ⊢
      intro x hx
      exact hpre.2 x hx
    rw [List.cons_append]
    rw [show goCut c (b :: (rest ++ c :: post)) =
      (b :: (goCut c (rest ++ c :: post)).1, (goCut c (rest ++ c :: post)).2) from by
        simp [goCut, hb]]
    rw [ih hrest]

/-- C10: `valueFlags.Set` fails exactly when its argument contains no `=`
(byte 61); otherwise it binds the part before the first `=` to everything
after it — further `=` bytes stay in the value. -/
theorem c10_set_spec (m : GoStr → Option GoStr) (value : GoStr) :
    ((valueFlagsSet m value = .error ()) ↔ goContainsByte 61 value = false) ∧
    (∀ pre post, value = pre ++ 61 :: post → goContainsByte 61 pre = false →
      ∃ m2, valueFlagsSet m value = .ok m2 ∧ m2 pre = some post ∧
        ∀ x, x ≠ pre → m2 x = m x) := by
  constructor
  · unfold valueFlagsSet goSplitN2
    rcases hcut : (goCut 61 value).2 with _ | post
    · simp only [hcut]
      constructor
      · intro _
        exact (goCut_snd_none 61 value).mp hcut
      · intro _
        trivial
    · simp only [hcut]
      constructor
      · intro habs
        exact Except.noConfusion habs
      · intro hno
        have := (goCut_snd_none 61 value).mpr hno
        rw [hcut] at this
        exact Option.noConfusion this
  · intro pre post hval hpre
    refine ⟨fun x => if x = pre then some post else m x, ?_, ?_, ?_⟩
    · unfold valueFlagsSet goSplitN2
      rw [hval, goCut_append_first 61 pre post hpre]
    · simp
    · intro x hx
      simp [hx]

/-- C10 witness: `"abc"` has no `=` and fails; `"a=b=c"` binds key `"a"`
to value `"b=c"`. -/
theorem c10_witness :
    valueFlagsSet (fun _ => none) (gs "abc") = .error () ∧
    (∃ m2, valueFlagsSet (fun _ => none) (gs "a=b=c") = .ok m2 ∧
      m2 (gs "a") = some (gs "b=c") ∧
      ∀ x, x ≠ gs "a" → m2 x = (fun _ => none) x) := by
  constructor
  · exact (c10_set_spec (fun _ => none) (gs "abc")).1.mpr (by decide)
  · exact (c10_set_spec (fun _ => none) (gs "a=b=c")).2 (gs "a") (gs "b=c")
      (by decide) (by decide)

/-- C7 counterexample: `main` performs no semicolon splitting.  With stdin
`"select 1; select 2"` and the (single) job failing, exactly one submission
is made and its text is the whole input — the second query is part of what
is submitted, not withheld; there is no per-query batch whose remainder
could be aborted. -/
theorem c7_counterexample :
    mainRun ⟨.ok "acct", gs "s3://bkt/tmp", .ok, .ok ("select 1; " ++ "select 2"),
        .ok (), [.status "FAILED" "SYNTAX_ERROR: line 1"], .ok ""⟩ id =
      some ⟨1, ["select 1; " ++ "select 2"], false,
        some (.execErr
          "could not execute athena query: athena query could not finish: SYNTAX_ERROR: line 1"),
        none⟩ := by
  decide

/-- C7 (amended): one invocation runs exactly one query lifecycle — the
whole rendered stdin as a single submission.  The exit code is 0 exactly
when every stage (account lookup, bucket setup, stdin read, query
execution to SUCCEEDED, result fetch) succeeds, any failing stage exits 1
with the error on stderr, and the submission list never has more than one
element; when stdin was read, it is either empty (a stage before submission
failed) or the single rendered input. -/
theorem c7_amended (w : MainWorld) (render : String → String)
    (out : MainOutcome) (h : mainRun w render = some out) :
    (out.exitCode = 0 ↔
      ((∃ a, w.accountID = Except.ok a) ∧
       createBucketIfNotExists w.resultPath w.createBucket = none ∧
       (∃ sql, w.stdin = Except.ok sql) ∧
       (executeQuery w.submit w.polls).1 = ExecResult.success ∧
       (∃ d, w.fetch = Except.ok d))) ∧
    (out.exitCode ≠ 0 → out.stderrText ≠ none) ∧
    out.submissions.length ≤ 1 ∧
    (∀ sql, w.stdin = Except.ok sql →
      out.submissions = [] ∨ out.submissions = [render sql]) := by
  unfold mainRun at h
  cases hacc : w.accountID with
  | error e =>
    rw [hacc] at h
    dsimp only at h
    injection h with h2
    subst h2
    exact ⟨by simp [hacc], by simp, by simp, fun sql _ => Or.inl rfl⟩
  | ok a =>
    rw [hacc] at h
    dsimp only at h
    cases hcb : createBucketIfNotExists w.resultPath w.createBucket with
    | some e =>
      rw [hcb] at h
      dsimp only at h
      injection h with h2
      subst h2
      exact ⟨by simp [hcb], by simp, by simp, fun sql _ => Or.inl rfl⟩
    | none =>
      rw [hcb] at h
      dsimp only at h
      cases hsin : w.stdin with
      | error e =>
        rw [hsin] at h
        dsimp only at h
        injection h with h2
        subst h2
        exact ⟨by simp [hsin], by simp, by simp, fun sql _ => Or.inl rfl⟩
      | ok sql =>
        rw [hsin] at h
        dsimp only at h
        rcases hex : executeQuery w.submit w.polls with ⟨r, n⟩
        rw [hex] at h
        have hnext : ∀ sql2, (Except.ok sql : Except String String) = Except.ok sql2 →
            [render sql] = [render sql2] := by
          intro sql2 hsql2
          injection hsql2 with h3
          rw [h3]
        cases r with
        | success =>
          dsimp only at h
          cases hfetch : w.fetch with
          | error e =>
            rw [hfetch] at h
            dsimp only at h
            injection h with h2
            subst h2
            refine ⟨?_, by simp, by simp, fun sql2 hs2 => Or.inr (hnext sql2 hs2)⟩
            simp [hacc, hcb, hsin, hex, hfetch]
          | ok d =>
            rw [hfetch] at h
            dsimp only at h
            injection h with h2
            subst h2
            refine ⟨?_, by simp, by simp, fun sql2 hs2 => Or.inr (hnext sql2 hs2)⟩
            simp [hacc, hcb, hsin, hex, hfetch]
        | exhausted =>
          dsimp only at h
          exact Option.noConfusion h
        | submitErr m =>
          dsimp only at h
          injection h with h2
          subst h2
          refine ⟨by simp [hex], by simp, by simp,
            fun sql2 hs2 => Or.inr (hnext sql2 hs2)⟩
        | statusErr m =>
          dsimp only at h
          injection h with h2
          subst h2
          refine ⟨by simp [hex], by simp, by simp,
            fun sql2 hs2 => Or.inr (hnext sql2 hs2)⟩
        | jobFailed m =>
          dsimp only at h
          injection h with h2
          subst h2
          refine ⟨by simp [hex], by simp, by simp,
            fun sql2 hs2 => Or.inr (hnext sql2 hs2)⟩

/-- C7 witness: a fully successful single-query run exits 0 with exactly
one submission: the rendered stdin. -/
theorem c7_witness :
    ((⟨0, ["show databases"], true, none, some "a,b"⟩ : MainOutcome).exitCode = 0) ∧
    (⟨0, ["show databases"], true, none, some "a,b"⟩ : MainOutcome).submissions =
      [id "show databases"] := by
  have h := c7_amended ⟨.ok "acct", gs "s3://bkt/tmp", .ok, .ok "show databases",
    .ok (), [.status "SUCCEEDED" ""], .ok "a,b"⟩ id
    ⟨0, ["show databases"], true, none, some "a,b"⟩ (by decide)
  constructor
  · exact h.1.mpr ⟨⟨"acct", rfl⟩, by decide, ⟨"show databases", rfl⟩,
      by decide, ⟨"a,b", rfl⟩⟩
  · rcases h.2.2.2 "show databases" rfl with h3 | h3
    · exact absurd h3 (by decide)
    · exact h3

/-- C9: `s3path.Parse` returns an error exactly when the input is empty,
when `url.Parse` fails, or when the parsed scheme is not `s3`; in every
other case it succeeds with `Bucket` the URL host and `Key` the URL path
with all leading `/` bytes removed. -/
theorem c9_parse_error_iff (s : GoStr) :
    ((∃ e, s3pathParse s = .error e) ↔
      (s = [] ∨ (∃ e, urlParse s = .error e) ∨
        (∀ u, urlParse s = .ok u → u.scheme ≠ gs "s3"))) ∧
    (∀ u, urlParse s = .ok u → s ≠ [] → u.scheme = gs "s3" →
      s3pathParse s = .ok ⟨u.host, u.path.dropWhile (· = 47)⟩) := by
  constructor
  · by_cases hs : s = []
    · subst hs
      simp [s3pathParse]
    · cases hu : urlParse s with
      | error e => simp [s3pathParse, hs, hu]
      | ok u =>
        by_cases hsch : u.scheme = gs "s3"
        · simp [s3pathParse, hs, hu, hsch]
        · simp [s3pathParse, hs, hu, hsch]
  · intro u hu hs hsch
    simp [s3pathParse, hs, hu, hsch]

/-- C9 witness: a normal `s3://` URL round-trips into bucket and key, and a
non-`s3` scheme is rejected. -/
theorem c9_witness :
    s3pathParse (gs "s3://bkt/a/b") = .ok ⟨gs "bkt", gs "a/b"⟩ ∧
    (∃ e, s3pathParse (gs "http://x/y") = .error e) := by
  constructor
  · have h := (c9_parse_error_iff (gs "s3://bkt/a/b")).2
      ⟨gs "s3", [], gs "bkt", gs "/a/b", [], []⟩ (by decide) (by decide) (by decide)
    rw [h]
    decide
  · have hparse : urlParse (gs "http://x/y") =
        .ok ⟨gs "http", [], gs "x", gs "/y", [], []⟩ := by decide
    refine (c9_parse_error_iff (gs "http://x/y")).1.mpr (Or.inr (Or.inr ?_))
    intro u hu
    rw [hparse] at hu
    injection hu with h2
    rw [← h2]
    decide

/-- Safe host bytes are ASCII. -/
theorem hostLiteralByte_lt (c : Nat) (h : hostLiteralByte c = true) : c < 128 := by
  unfold hostLiteralByte at h
  simp only [Bool.or_eq_true, decide_eq_true_eq] at h
  omega

/-- The facts about a safe host byte that the round-trip proof uses: it is
not escaped by the host encoder, and it is none of the bytes that steer
`url.Parse` (`% # ? / : @ [ ]`) nor a control byte. -/
theorem hostLiteralByte_facts_lt : ∀ c, c < 128 → hostLiteralByte c = true →
    (shouldEscape c .host = false ∧ c ≠ 37 ∧ c ≠ 35 ∧ c ≠ 63 ∧ c ≠ 47 ∧
     c ≠ 58 ∧ c ≠ 64 ∧ c ≠ 91 ∧ c ≠ 93 ∧ ¬(c < 32 ∨ c = 127)) := by
  decide

/-- Unbounded form of `hostLiteralByte_facts_lt`. -/
theorem hostSafe_facts (c : Nat) (h : hostLiteralByte c = true) :
    shouldEscape c .host = false ∧ c ≠ 37 ∧ c ≠ 35 ∧ c ≠ 63 ∧ c ≠ 47 ∧
      c ≠ 58 ∧ c ≠ 64 ∧ c ≠ 91 ∧ c ≠ 93 ∧ ¬(c < 32 ∨ c = 127) :=
  hostLiteralByte_facts_lt c (hostLiteralByte_lt c h) h

/-- The escaper digit table produces decimal or upper-hex digit bytes. -/
theorem upperHexDigit_facts : ∀ d, d < 16 →
    ((48 ≤ upperHexDigit d ∧ upperHexDigit d ≤ 57) ∨
      (65 ≤ upperHexDigit d ∧ upperHexDigit d ≤ 70)) ∧
    ishex (upperHexDigit d) = true ∧ unhex (upperHexDigit d) = d := by
  decide

/-- A byte the path encoder leaves unescaped is none of the parse-steering
bytes `# ? %` and is not a control byte. -/
theorem shouldEscape_path_false_facts (c : Nat)
    (h : shouldEscape c .path = false) :
    c ≠ 35 ∧ c ≠ 63 ∧ c ≠ 37 ∧ ¬(c < 32 ∨ c = 127) := by
  have hlow : ∀ c2, c2 < 32 → shouldEscape c2 .path = true := by decide
  refine ⟨?_, ?_, ?_, ?_⟩
  · intro hc
    subst hc
    exact absurd h (by decide)
  · intro hc
    subst hc
    exact absurd h (by decide)
  · intro hc
    subst hc
    exact absurd h (by decide)
  · rintro (hc | hc)
    · rw [hlow c hc] at h
      exact Bool.noConfusion h
    · subst hc
      exact absurd h (by decide)

/-- Host-encoding a string of safe host bytes changes nothing. -/
theorem escapeGo_host_id (b : GoStr) (hb : ∀ c ∈ b, hostLiteralByte c = true) :
    escapeGo .host b = b := by
  induction b with
  | nil => rfl
  | cons c rest ih =>
    have h1 := (hostSafe_facts c (hb c (by simp))).1
    rw [escapeGo, h1]
    simp only [Bool.false_eq_true, if_false, List.singleton_append]
    rw [ih (fun x hx => hb x (by simp [hx]))]

/-- Host-unescaping a string of safe host bytes succeeds unchanged. -/
theorem unescapeGo_host_id (b : GoStr) (hb : ∀ c ∈ b, hostLiteralByte c = true) :
    unescapeGo .host b = .ok b := by
  induction b with
  | nil => rfl
  | cons c rest ih =>
    have hf := hostSafe_facts c (hb c (by simp))
    have hrest := ih (fun x hx => hb x (by simp [hx]))
    rw [unescapeGo.eq_def]
    dsimp only
    rw [if_neg hf.2.1]
    by_cases hc43 : c = 43
    · subst hc43
      rw [if_pos rfl, hrest]
      rfl
    · rw [if_neg hc43]
      rw [if_neg (by simp [hf.1])]
      rw [hrest]

/-- Every byte of a path-encoded string is `%`, a hex digit, or a byte the
path encoder leaves unescaped. -/
theorem escapeGo_path_mem (k : GoStr) (hk : ∀ c ∈ k, c < 256) :
    ∀ c ∈ escapeGo .path k,
      c = 37 ∨ (48 ≤ c ∧ c ≤ 57) ∨ (65 ≤ c ∧ c ≤ 70) ∨
        shouldEscape c .path = false := by
  induction k with
  | nil => simp [escapeGo]
  | cons b rest ih =>
    intro c hc
    have hb : b < 256 := hk b (by simp)
    have hrest := ih (fun x hx => hk x (by simp [hx]))
    rw [escapeGo] at hc
    rcases List.mem_append.mp hc with hc | hc
    · split at hc
      · split at hc
        · rename_i hq
          exact absurd hq.2 (by decide)
        · simp only [List.mem_cons, List.not_mem_nil, or_false] at hc
          rcases hc with hc | hc | hc
          · exact Or.inl hc
          · have hdiv : b / 16 < 16 := by omega
            rcases (upperHexDigit_facts (b / 16) hdiv).1 with h | h
            · rw [hc]
              exact Or.inr (Or.inl h)
            · rw [hc]
              exact Or.inr (Or.inr (Or.inl h))
          · have hmod : b % 16 < 16 := by omega
            rcases (upperHexDigit_facts (b % 16) hmod).1 with h | h
            · rw [hc]
              exact Or.inr (Or.inl h)
            · rw [hc]
              exact Or.inr (Or.inr (Or.inl h))
      · rename_i hesc
        simp only [List.mem_singleton] at hc
        rw [hc]
        exact Or.inr (Or.inr (Or.inr (Bool.eq_false_iff.mpr hesc)))
    · exact hrest c hc

/-- No byte of a path-encoded string is `#`, `?` or a control byte. -/
theorem escapeGo_path_no_special (k : GoStr) (hk : ∀ c ∈ k, c < 256) :
    ∀ c ∈ escapeGo .path k, c ≠ 35 ∧ c ≠ 63 ∧ ¬(c < 32 ∨ c = 127) := by
  intro c hc
  rcases escapeGo_path_mem k hk c hc with h | h | h | h
  · rw [h]
    exact ⟨by decide, by decide, by decide⟩
  · exact ⟨by omega, by omega, by omega⟩
  · exact ⟨by omega, by omega, by omega⟩
  · have hf := shouldEscape_path_false_facts c h
    exact ⟨hf.1, hf.2.1, hf.2.2.2⟩

/-- Undoing the path encoding recovers the original bytes. -/
theorem unescapeGo_path_escape (k : GoStr) (hk : ∀ c ∈ k, c < 256) :
    unescapeGo .path (escapeGo .path k) = .ok k := by
  induction k with
  | nil => rfl
  | cons c rest ih =>
    have hc : c < 256 := hk c (by simp)
    have hrest := ih (fun x hx => hk x (by simp [hx]))
    rw [escapeGo]
    cases hesc : shouldEscape c .path with
    | true =>
      rw [if_pos rfl]
      rw [if_neg (by simp)]
      have hdiv : c / 16 < 16 := by omega
      have hmod : c % 16 < 16 := by omega
      have hhex1 := upperHexDigit_facts (c / 16) hdiv
      have hhex2 := upperHexDigit_facts (c % 16) hmod
      rw [List.cons_append, List.cons_append, List.cons_append, List.nil_append]
      rw [unescapeGo.eq_def]
      dsimp only
      rw [if_pos rfl]
      rw [if_pos ⟨hhex1.2.1, hhex2.2.1⟩]
      rw [if_neg (by simp)]
      rw [if_neg (by simp)]
      rw [hrest]
      rw [hhex1.2.2, hhex2.2.2]
      have hdm : c / 16 * 16 + c % 16 = c := by omega
      rw [hdm]
    | false =>
      rw [if_neg (by simp)]
      have h37 : c ≠ 37 := by
        intro h
        subst h
        exact absurd hesc (by decide)
      rw [List.cons_append, List.nil_append]
      rw [unescapeGo.eq_def]
      dsimp only
      rw [if_neg h37]
      by_cases hc43 : c = 43
      · subst hc43
        rw [if_pos rfl, hrest]
        rfl
      · rw [if_neg hc43]
        rw [if_neg (by simp)]
        rw [hrest]

/-- `goCut` is the identity cut when the byte is absent. -/
theorem goCut_eq_self (c : Nat) (l : GoStr) (h : ∀ x ∈ l, x ≠ c) :
    goCut c l = (l, none) := by
  induction l with
  | nil => rfl
  | cons b rest ih =>
    rw [goCut]
    rw [if_neg (h b (by simp))]
    rw [ih (fun x hx => h x (by simp [hx]))]

/-- `indexByte` finds nothing when the byte is absent. -/
theorem indexByte_eq_none (c : Nat) (l : GoStr) (h : ∀ x ∈ l, x ≠ c) :
    indexByte c l = none := by
  induction l with
  | nil => rfl
  | cons b rest ih =>
    rw [indexByte]
    rw [if_neg (h b (by simp))]
    rw [ih (fun x hx => h x (by simp [hx]))]
    rfl

/-- `indexByte` finds the first occurrence right after a clean block. -/
theorem indexByte_append_cons (c : Nat) (pre post : GoStr)
    (h : ∀ x ∈ pre, x ≠ c) :
    indexByte c (pre ++ c :: post) = some pre.length := by
  induction pre with
  | nil =>
    rw [List.nil_append, indexByte, if_pos rfl]
    rfl
  | cons b rest ih =>
    rw [List.cons_append, indexByte]
    rw [if_neg (h b (by simp))]
    rw [ih (fun x hx => h x (by simp [hx]))]
    rfl

/-- `lastIndexByte` finds nothing when the byte is absent. -/
theorem lastIndexByte_eq_none (c : Nat) (l : GoStr) (h : ∀ x ∈ l, x ≠ c) :
    lastIndexByte c l = none := by
  induction l with
  | nil => rfl
  | cons b rest ih =>
    rw [lastIndexByte]
    rw [ih (fun x hx => h x (by simp [hx]))]
    simp [h b (by simp)]

/-- `hasSuffixByte` is false when the byte is absent. -/
theorem hasSuffixByte_eq_false (c : Nat) (l : GoStr) (h : ∀ x ∈ l, x ≠ c) :
    hasSuffixByte c l = false := by
  have hne : l.getLast? ≠ some c := by
    intro hl
    rcases List.mem_getLast?_eq_getLast (Option.mem_def.mpr hl) with ⟨hx, heq⟩
    have hmem : c ∈ l := by
      rw [heq]
      exact List.getLast_mem hx
    exact h c hmem rfl
  simp only [hasSuffixByte, decide_eq_false_iff_not]
  exact hne

/-- `getScheme` on a `s3:`-prefixed input. -/
theorem getScheme_s3 (rest : GoStr) :
    getScheme (115 :: 51 :: 58 :: rest) = .ok ([115, 51], rest) := by
  norm_num [getScheme, getSchemeAux]

/-- Taking the length of the left part of an append returns it. -/
theorem takeAppend (l1 l2 : GoStr) : (l1 ++ l2).take l1.length = l1 := by
  induction l1 with
  | nil => rfl
  | cons b rest ih => simp [ih]

/-- Dropping the length of the left part of an append returns the right. -/
theorem dropAppend (l1 l2 : GoStr) : (l1 ++ l2).drop l1.length = l2 := by
  induction l1 with
  | nil => rfl
  | cons b rest ih => simp [ih]

/-- `url.Parse` on `s3://` followed by a safe-byte host and an
already-path-encoded remainder (either empty or starting with `/`): it
succeeds with scheme `s3`, host `b` and the decoded path. -/
theorem urlParse_s3_shape (b tail pathVal : GoStr) (hb : b ≠ [])
    (hbs : ∀ c ∈ b, hostLiteralByte c = true)
    (htail : ∀ c ∈ tail, c ≠ 35 ∧ c ≠ 63 ∧ ¬(c < 32 ∨ c = 127))
    (hhead : tail = [] ∨ ∃ t2, tail = 47 :: t2)
    (hpath : unescapeGo .path tail = .ok pathVal) :
    urlParse ([115, 51, 58, 47, 47] ++ b ++ tail) =
      .ok ⟨[115, 51], [], b, pathVal, [], []⟩ := by
  have hbf : ∀ c ∈ b, shouldEscape c .host = false ∧ c ≠ 37 ∧ c ≠ 35 ∧ c ≠ 63 ∧
      c ≠ 47 ∧ c ≠ 58 ∧ c ≠ 64 ∧ c ≠ 91 ∧ c ≠ 93 ∧ ¬(c < 32 ∨ c = 127) :=
    fun c hc => hostSafe_facts c (hbs c hc)
  have h47b : ∀ x ∈ b, x ≠ 47 := fun x hx => (hbf x hx).2.2.2.2.1
  have h35 : ∀ x ∈ (115 :: 51 :: 58 :: 47 :: 47 :: (b ++ tail) : GoStr),
      x ≠ 35 := by
    intro x hx
    simp only [List.mem_cons, List.mem_append] at hx
    rcases hx with h | h | h | h | h | h | h
    · omega
    · omega
    · omega
    · omega
    · omega
    · exact (hbf x h).2.2.1
    · exact (htail x h).1
  have hctl : ∀ x ∈ (115 :: 51 :: 58 :: 47 :: 47 :: (b ++ tail) : GoStr),
      ¬(x < 32 ∨ x = 127) := by
    intro x hx
    simp only [List.mem_cons, List.mem_append] at hx
    rcases hx with h | h | h | h | h | h | h
    · omega
    · omega
    · omega
    · omega
    · omega
    · exact (hbf x h).2.2.2.2.2.2.2.2.2
    · exact (htail x h).2.2
  have h63r : ∀ x ∈ (47 :: 47 :: (b ++ tail) : GoStr), x ≠ 63 := by
    intro x hx
    simp only [List.mem_cons, List.mem_append] at hx
    rcases hx with h | h | h | h
    · omega
    · omega
    · exact (hbf x h).2.2.2.1
    · exact (htail x h).2.1
  have hauth : parseAuthority b = .ok b := by
    unfold parseAuthority
    rw [lastIndexByte_eq_none 64 b (fun x hx => (hbf x hx).2.2.2.2.2.2.1)]
    unfold parseHost
    have h91 : b.head? ≠ some 91 := by
      cases b with
      | nil => simp
      | cons c0 r =>
        intro hh
        exact (hbf c0 (by simp)).2.2.2.2.2.2.2.1 (Option.some.inj hh)
    rw [if_neg h91]
    rw [lastIndexByte_eq_none 58 b (fun x hx => (hbf x hx).2.2.2.2.2.1)]
    exact unescapeGo_host_id b hbs
  have hctlF : stringContainsCTL
      (115 :: 51 :: 58 :: 47 :: 47 :: (b ++ tail)) = false := by
    simp only [stringContainsCTL, List.any_eq_false, decide_eq_true_eq]
    exact hctl
  have hsfx : hasSuffixByte 63 (47 :: 47 :: (b ++ tail)) = false :=
    hasSuffixByte_eq_false 63 _ h63r
  have h1 : parseInner (115 :: 51 :: 58 :: 47 :: 47 :: (b ++ tail)) =
      parseAfterScheme (toLowerGo [115, 51]) (47 :: 47 :: (b ++ tail)) := by
    unfold parseInner
    rw [if_neg (by rw [hctlF]; simp)]
    rw [if_neg (by simp)]
    rw [getScheme_s3]
  have h2 : parseAfterScheme (toLowerGo [115, 51]) (47 :: 47 :: (b ++ tail)) =
      parseAfterQuery (toLowerGo [115, 51]) (47 :: 47 :: (b ++ tail)) [] := by
    unfold parseAfterScheme
    rw [if_neg (by rw [hsfx]; simp)]
    rw [goCut_eq_self 63 _ h63r]
    rfl
  have h3 : parseAfterQuery (toLowerGo [115, 51]) (47 :: 47 :: (b ++ tail)) [] =
      parseAuthorityAndPath (toLowerGo [115, 51]) b tail [] := by
    unfold parseAfterQuery
    rw [if_neg (fun hcontra => hcontra.1 rfl)]
    rw [if_neg (fun hcontra => hcontra.1 rfl)]
    rw [if_pos ⟨Or.inl (by decide), by simp [List.isPrefixOf]⟩]
    simp only [List.drop_succ_cons, List.drop_zero]
    rcases hhead with htl | ⟨t2, htl⟩
    · subst htl
      rw [List.append_nil]
      rw [indexByte_eq_none 47 b h47b]
    · subst htl
      rw [indexByte_append_cons 47 b t2 h47b]
      dsimp only
      rw [takeAppend, dropAppend]
  have h4 : parseAuthorityAndPath (toLowerGo [115, 51]) b tail [] =
      .ok ⟨[115, 51], [], b, pathVal, [], []⟩ := by
    unfold parseAuthorityAndPath
    rw [hauth, hpath]
    rfl
  unfold urlParse
  rw [goCut_eq_self 35 _ (by
    intro x hx
    refine h35 x ?_
    simpa using hx)]
  dsimp only
  rw [show ([115, 51, 58, 47, 47] ++ b ++ tail : GoStr) =
    115 :: 51 :: 58 :: 47 :: 47 :: (b ++ tail) from by simp]
  rw [h1, h2, h3, h4]

/-- Path-encoding a key that does not start with `/` yields a non-empty
string that does not start with `/` either. -/
theorem escapeGo_path_cons_facts (c0 : Nat) (k2 : GoStr) (h0 : c0 ≠ 47) :
    escapeGo .path (c0 :: k2) ≠ [] ∧
    (escapeGo .path (c0 :: k2)).head? ≠ some 47 := by
  rw [escapeGo]
  cases hesc : shouldEscape c0 .path with
  | true =>
    rw [if_pos rfl, if_neg (by simp)]
    constructor
    · simp
    · simp
  | false =>
    rw [if_neg (by simp)]
    constructor
    · simp
    · simp [h0]

/-- C8 (amended): the render/parse round trip holds for every non-empty
bucket consisting of host-safe literal bytes (`hostLiteralByte`: the bytes
the Go host encoder leaves unescaped, minus `:` `[` `]`) and every key of
bytes not beginning with `/`:
`Parse((&S3Path{Bucket: b, Key: k}).String())` succeeds and returns
`Bucket = b`, `Key = k`.  The unamended claim, over all bucket strings,
fails — see the counterexample with `b = "a:x"`. -/
theorem c8_roundtrip (b k : GoStr) (hb : b ≠ [])
    (hbs : ∀ c ∈ b, hostLiteralByte c = true)
    (hk : ∀ c ∈ k, c < 256)
    (hk0 : k.head? ≠ some 47) :
    s3pathParse (S3Path.render ⟨b, k⟩) = .ok ⟨b, k⟩ := by
  have hgs : (gs "s3") = [115, 51] := by decide
  cases k with
  | nil =>
    have hrender : S3Path.render ⟨b, []⟩ = [115, 51, 58, 47, 47] ++ b ++ [] := by
      unfold S3Path.render urlToString
      rw [hgs]
      dsimp only
      rw [if_pos (by decide)]
      rw [if_pos (Or.inl (by decide))]
      rw [if_pos (Or.inl hb)]
      rw [escapeGo_host_id b hbs]
      rw [if_neg (by simp [escapeGo])]
      rw [if_neg (by simp)]
      simp [escapeGo]
    have hshape := urlParse_s3_shape b [] [] hb hbs (by simp) (Or.inl rfl) rfl
    rw [hrender]
    unfold s3pathParse
    rw [if_neg (by simp)]
    rw [hshape]
    dsimp only
    rw [if_neg (by decide)]
    rfl
  | cons c0 k2 =>
    have hc0 : c0 ≠ 47 := fun h => hk0 (by rw [List.head?_cons, h])
    have hepf := escapeGo_path_cons_facts c0 k2 hc0
    have hpath47 : unescapeGo .path (47 :: escapeGo .path (c0 :: k2)) =
        .ok (47 :: (c0 :: k2)) := by
      rw [unescapeGo.eq_def]
      dsimp only
      rw [if_neg (by decide), if_neg (by decide), if_neg (by simp)]
      rw [unescapeGo_path_escape (c0 :: k2) hk]
    have htail : ∀ c ∈ (47 :: escapeGo .path (c0 :: k2) : GoStr),
        c ≠ 35 ∧ c ≠ 63 ∧ ¬(c < 32 ∨ c = 127) := by
      intro c hc
      rcases List.mem_cons.mp hc with h | h
      · rw [h]
        exact ⟨by decide, by decide, by decide⟩
      · exact escapeGo_path_no_special (c0 :: k2) hk c h
    have hshape := urlParse_s3_shape b (47 :: escapeGo .path (c0 :: k2))
      (47 :: (c0 :: k2)) hb hbs htail (Or.inr ⟨_, rfl⟩) hpath47
    have hrender : S3Path.render ⟨b, c0 :: k2⟩ =
        [115, 51, 58, 47, 47] ++ b ++ (47 :: escapeGo .path (c0 :: k2)) := by
      unfold S3Path.render urlToString
      rw [hgs]
      dsimp only
      rw [if_pos (by decide)]
      rw [if_pos (Or.inl (by decide))]
      rw [if_pos (Or.inl hb)]
      rw [escapeGo_host_id b hbs]
      rw [if_pos ⟨hepf.1, hepf.2, hb⟩]
      rw [if_neg (by simp)]
      simp
    rw [hrender]
    unfold s3pathParse
    rw [if_neg (by simp)]
    rw [hshape]
    dsimp only
    rw [if_neg (by decide)]
    simp [List.dropWhile_cons, hc0]

/-- C8 counterexample: for the bucket `"a:x"` (non-empty) and key `"k"`
(not beginning with `/`), `String()` renders `s3://a:x/k`, and `Parse`
rejects it — Go `net/url` treats `:x` as an invalid port in the host — so
the round trip of the claim fails. -/
theorem c8_counterexample :
    gs "a:x" ≠ [] ∧ (gs "k").head? ≠ some 47 ∧
    s3pathParse (S3Path.render ⟨gs "a:x", gs "k"⟩) =
      .error (.urlErr .invalidPort) := by
  exact ⟨by decide, by decide, by decide⟩

/-- C8 witness: a realistic bucket/key pair round-trips. -/
theorem c8_witness :
    s3pathParse (S3Path.render ⟨gs "my-bucket.name", gs "Unsaved/2024/01/02"⟩) =
      .ok ⟨gs "my-bucket.name", gs "Unsaved/2024/01/02"⟩ := by
  exact c8_roundtrip (gs "my-bucket.name") (gs "Unsaved/2024/01/02")
    (by decide) (by decide) (by decide) (by decide)

end Athenaq
